import Mathlib

/-!
Shallow embedding of the span-lifecycle tracking engine of `src/sdk.ts`
(`@tjk/sentry-vue3`, class `VueHelper`).

Modelling conventions:
* `setTimeout`/`clearTimeout` debouncing of `_finishRootSpan` is a single
  pending-timer slot (`rootSpanTimer`) holding the timestamp captured by the
  scheduling call; an `expire` event models the pending timer firing.
* Span creations/finishes are recorded in an append-only event log.  A span
  is identified by the value of the allocation counter `nextSid` when it was
  started.  `Event.startChild` additionally carries a `SpanKind` tag telling
  which handler created it (root handler vs. a child instance's handler);
  this tag is pure bookkeeping for the specification and affects nothing.
* `Span.finish()` (no argument, used by the child handler) finishes at the
  current time, which inside one synchronous hook firing is the `now`
  computed by that firing; the model records that timestamp.
* Per-instance mutable closure state of `_applyTracingHooks` (the injected
  callbacks with their `execNumber` counters, and the `spans` slot object)
  is stored on the `Inst` record: `cbs` lists the injected callbacks in
  `unshift` (most-recently-injected-first) order, each carrying an index
  into the `counters` list.
-/

namespace VueSdk

/-- The five tracked operations (`type Operation` in the source). -/
inductive Operation
  | activate
  | create
  | unmount
  | mount
  | update
deriving DecidableEq, Repr

/-- Vue's internal lifecycle hook keys (`const enum LifecycleHook`). -/
inductive LifecycleHook
  | bc
  | c
  | bm
  | m
  | bu
  | u
  | bum
  | um
  | da
  | a
deriving DecidableEq, Repr

/-- Source `HOOKS`: mapping from operation to its pair of lifecycle hooks. -/
def HOOKS : Operation → List LifecycleHook
  | .activate => [.a, .da]
  | .create => [.bc, .c]
  | .unmount => [.bum, .um]
  | .mount => [.bm, .m]
  | .update => [.bu, .u]

/-- The string used as the `op` field of a child span (`op: operation`). -/
def opStr : Operation → String
  | .activate => "activate"
  | .create => "create"
  | .unmount => "unmount"
  | .mount => "mount"
  | .update => "update"

/-- Source `trackComponents: boolean | string[]`. -/
inductive TrackComponents
  | flag (b : Bool)
  | names (l : List String)
deriving DecidableEq, Repr

/-- Source `interface TracingOptions`. -/
structure TracingOptions where
  trackComponents : TrackComponents
  timeout : Nat
  hooks : List Operation
deriving DecidableEq, Repr

/-- The `shouldTrack` computation at the top of `childHandler`. -/
def shouldTrack (cfg : TracingOptions) (name : String) : Bool :=
  match cfg.trackComponents with
  | .names l => l.contains name
  | .flag b => b

/-- The per-instance `spans` object of `_applyTracingHooks`: one optional
span id per operation. -/
structure SpanSlots where
  activate : Option Nat := none
  create : Option Nat := none
  unmount : Option Nat := none
  mount : Option Nat := none
  update : Option Nat := none
deriving DecidableEq, Repr

/-- Read the slot for an operation. -/
def SpanSlots.get (s : SpanSlots) : Operation → Option Nat
  | .activate => s.activate
  | .create => s.create
  | .unmount => s.unmount
  | .mount => s.mount
  | .update => s.update

/-- Write the slot for an operation (`spans[operation] = span`). -/
def SpanSlots.set (s : SpanSlots) : Operation → Nat → SpanSlots
  | .activate, sid => { s with activate := some sid }
  | .create, sid => { s with create := some sid }
  | .unmount, sid => { s with unmount := some sid }
  | .mount, sid => { s with mount := some sid }
  | .update, sid => { s with update := some sid }

/-- Tag recording which handler started a span (model bookkeeping only). -/
inductive SpanKind
  | rootRender
  | child (uid : Nat) (op : Operation)
deriving DecidableEq, Repr

/-- The parent a span was started under (`childOf.startChild`). -/
inductive SpanParent
  | span (sid : Nat)
  | transaction (tid : Nat)
deriving DecidableEq, Repr

/-- Observable span events emitted by the engine. -/
inductive Event
  | startChild (sid : Nat) (kind : SpanKind) (parent : SpanParent)
      (description : String) (op : String) (t : Nat)
  | finishSpan (sid : Nat) (t : Nat)
deriving DecidableEq, Repr

/-- The mutable fields of the `VueHelper` class used by the engine. -/
structure VueHelperState where
  installCache : List Nat := []
  rootSpan : Option Nat := none
  rootSpanTimer : Option Nat := none
deriving DecidableEq, Repr

/-- Source `_finishRootSpan(timestamp)`: cancel any pending idle timer and schedule
a new one; the scheduled closure captures `timestamp`. -/
def finishRootSpan (t : Nat) (h : VueHelperState) : VueHelperState :=
  { h with rootSpanTimer := some t }

/-- The pending idle timer firing: if a root span is open, finish it at the
timestamp captured when the timer was last scheduled and clear `_rootSpan`. -/
def rootTimerExpire (h : VueHelperState) : VueHelperState × List Event :=
  match h.rootSpanTimer with
  | none => (h, [])
  | some t =>
    match h.rootSpan with
    | some sid =>
      ({ h with rootSpan := none, rootSpanTimer := none }, [.finishSpan sid t])
    | none => ({ h with rootSpanTimer := none }, [])

/-- One live component instance together with the closure state the helper
keeps for it.  `cbs` are the injected callbacks (hook, bound operation,
counter index), most recently injected first; `counters` holds each injected
callback's `execNumber`. -/
structure Inst where
  uid : Nat
  isRoot : Bool
  name : String
  isUnmounted : Bool := false
  cbs : List (LifecycleHook × Operation × Nat) := []
  counters : List Nat := []
  spans : SpanSlots := {}
deriving DecidableEq, Repr

/-- Whole-system state: helper fields, the ambient active transaction, the
root instance, the child instances, the span-id allocator, the event log. -/
structure World where
  helper : VueHelperState := {}
  activeTransaction : Option Nat := none
  root : Inst
  children : List Inst := []
  nextSid : Nat := 0
  events : List Event := []
deriving DecidableEq, Repr

/-- The value `this._rootSpan || getActiveTransaction()` as seen by `childHandler`. -/
def childOfW (w : World) : Option SpanParent :=
  match w.helper.rootSpan with
  | some sid => some (.span sid)
  | none => w.activeTransaction.map .transaction

/-- Source `rootHandler(execNumber)` of `_applyTracingHooks`. -/
def rootHandler (now : Nat) (execNumber : Nat) (w : World) : World :=
  match w.helper.rootSpan with
  | some _ => { w with helper := finishRootSpan now w.helper }
  | none =>
    if execNumber = 1 then
      match w.activeTransaction with
      | some tid =>
        { w with
          helper := { w.helper with rootSpan := some w.nextSid },
          nextSid := w.nextSid + 1,
          events := w.events ++
            [.startChild w.nextSid .rootRender (.transaction tid)
              "Application Render" "Vue" now] }
      | none => w
    else w

/-- Source `childHandler(operation, execNumber)` of `_applyTracingHooks`, acting on
the world and the firing instance (whose `name` and `spans` it closes over). -/
def childHandler (cfg : TracingOptions) (op : Operation) (now : Nat)
    (execNumber : Nat) (w : World) (i : Inst) : World × Inst :=
  let st := shouldTrack cfg i.name
  match childOfW w, st with
  | none, _ => (w, i)
  | some _, false => (w, i)
  | some p, true =>
    match i.spans.get op with
    | some sid =>
      ({ w with
         events := w.events ++ [.finishSpan sid now],
         helper := finishRootSpan now w.helper }, i)
    | none =>
      if execNumber = 1 then
        ({ w with
           nextSid := w.nextSid + 1,
           events := w.events ++
             [.startChild w.nextSid (.child i.uid op) p
               ("Vue <" ++ i.name ++ ">") (opStr op) now] },
         { i with spans := i.spans.set op w.nextSid })
      else (w, i)

/-- Source `_injectHook(instance, hook, fn)`: unshift a fresh callback (with its own
`execNumber` counter, starting at 0) onto the instance's list for `hook`. -/
def injectHook (i : Inst) (h : LifecycleHook) (op : Operation) : Inst :=
  { i with
    cbs := (h, op, i.counters.length) :: i.cbs,
    counters := i.counters ++ [0] }

/-- The hook-injection loop of `_applyTracingHooks`: for each configured
operation, inject a callback on each of its two lifecycle hooks. -/
def applyTracingHooksInst (cfg : TracingOptions) (i : Inst) : Inst :=
  cfg.hooks.foldl
    (fun i op => (HOOKS op).foldl (fun i h => injectHook i h op) i) i

/-- Source `doHook` for one injected callback: skip if unmounted, otherwise read and
bump its `execNumber` and run the bound handler (root or child). -/
def fireCb (cfg : TracingOptions) (now : Nat) (w : World) (i : Inst)
    (cb : LifecycleHook × Operation × Nat) : World × Inst :=
  if i.isUnmounted then (w, i)
  else
    let exec := i.counters.getD cb.2.2 0
    let i' := { i with counters := i.counters.set cb.2.2 (exec + 1) }
    if i'.isRoot then (rootHandler now exec w, i')
    else childHandler cfg cb.2.1 now exec w i'

/-- The framework firing lifecycle hook `h` on an instance: run every
callback injected for `h`, in list order. -/
def fireHook (cfg : TracingOptions) (now : Nat) (h : LifecycleHook)
    (w : World) (i : Inst) : World × Inst :=
  (i.cbs.filter (fun cb => cb.1 == h)).foldl
    (fun p cb => fireCb cfg now p.1 p.2 cb) (w, i)

/-- Look an instance up by uid (root first, then the children list). -/
def findInst (w : World) (uid : Nat) : Option Inst :=
  if w.root.uid == uid then some w.root
  else w.children.find? (fun i => i.uid == uid)

/-- External events driving a run of the system. -/
inductive WEvent
  | install (uid : Nat)
  | fire (uid : Nat) (h : LifecycleHook) (t : Nat)
  | expire
  | setTransaction (o : Option Nat)
deriving DecidableEq, Repr

/-- One step of the system.  `install` is `_applyTracingHooks` (with its
install-once guard on `_installCache`); `fire` is the framework invoking a
lifecycle hook's callback list; `expire` is the pending root-span idle timer
firing; `setTransaction` changes the ambient active transaction. -/
def step (cfg : TracingOptions) (w : World) (e : WEvent) : World :=
  match e with
  | .setTransaction o => { w with activeTransaction := o }
  | .expire =>
    let (h', evs) := rootTimerExpire w.helper
    { w with helper := h', events := w.events ++ evs }
  | .install uid =>
    if uid ∈ w.helper.installCache then w
    else
      let w' := { w with
        helper := { w.helper with installCache := uid :: w.helper.installCache } }
      if w'.root.uid == uid then
        { w' with root := applyTracingHooksInst cfg w'.root }
      else
        { w' with children := (w'.children.map
            (fun i => if i.uid == uid then applyTracingHooksInst cfg i else i)) }
  | .fire uid h t =>
    if w.root.uid == uid then
      let (w', r') := fireHook cfg t h w w.root
      { w' with root := r' }
    else
      match w.children.find? (fun i => i.uid == uid) with
      | none => w
      | some i =>
        let (w', i') := fireHook cfg t h w i
        { w' with children := (w'.children.map
            (fun j => if j.uid == uid then i' else j)) }

/-- Run a sequence of events. -/
def run (cfg : TracingOptions) (w : World) (es : List WEvent) : World :=
  es.foldl (step cfg) w

/-! ## Component-name resolution (`_getComponentName` and friends) -/

/-- JavaScript `\w`: `[A-Za-z0-9_]`. -/
def isWordChar (c : Char) : Bool :=
  ('a' ≤ c && c ≤ 'z') || ('A' ≤ c && c ≤ 'Z') || ('0' ≤ c && c ≤ '9') || c = '_'

/-- Separators consumed by the `classifyRE` regex: `[-_/]`. -/
def isSep (c : Char) : Bool :=
  c = '-' || c = '_' || c = '/'

/-- Left-to-right global replacement of the regex `(?:^|[-_/])(\w)` by the
upper-cased captured character (`toUpper`): at the start of the string a word
character is upper-cased; elsewhere a separator followed by a word character
is replaced by that character upper-cased. -/
def classifyAux : Bool → List Char → List Char
  | _, [] => []
  | atStart, [c] =>
    if atStart && isWordChar c then [c.toUpper] else [c]
  | atStart, c :: d :: rest =>
    if atStart && isWordChar c then c.toUpper :: classifyAux false (d :: rest)
    else if isSep c then
      (if isWordChar d then d.toUpper :: classifyAux false rest
       else c :: classifyAux false (d :: rest))
    else c :: classifyAux false (d :: rest)

/-- Source `classify` (the `cached` wrapper memoizes a pure function, so it is
semantically the bare function; `classify("")` returns `""`). -/
def classify (s : String) : String :=
  ⟨classifyAux true s.toList⟩

/-- Source `basename(path, ext)` from `@sentry/utils`: the last path component with
trailing slashes removed, minus `ext` when it is a suffix. -/
def basename (path ext : String) : String :=
  let noTrail := (path.toList.reverse.dropWhile (fun c => c = '/')).reverse
  let fname : String := ⟨(noTrail.reverse.takeWhile (fun c => c ≠ '/')).reverse⟩
  if ext ≠ "" && fname.endsWith ext then fname.dropRight ext.length else fname

/-- A component type descriptor (`instance.type`), with an identity `tid`
standing for JavaScript object identity (used by the `===` scans). -/
structure CompType where
  tid : Nat
  name : Option String := none
  componentTag : Option String := none
  uid : Option Nat := none
  file : Option String := none
deriving DecidableEq, Repr

/-- The instance shape consumed by `_getComponentName`: its `uid`, its
optional `type` descriptor, whether `instance.root === instance`, and the
two registries scanned by the fallback (key paired with the registered
type's identity). -/
structure VmInstance where
  uid : Nat
  type : Option CompType := none
  isRootVm : Bool := false
  parentComponents : List (String × Nat) := []
  appComponents : List (String × Nat) := []
deriving DecidableEq, Repr

/-- JavaScript truthiness of an optional string (`undefined` and `""` are
falsy). -/
def jsTruthy : Option String → Option String
  | some s => if s = "" then none else some s
  | none => none

/-- Object-indexing into `_nameCache` (an association list with newest entry
first, matching JS property overwrite). -/
def lookupCache (cache : List (Nat × String)) (u : Nat) : Option String :=
  (cache.find? (fun p => p.1 == u)).map (fun p => p.2)

/-- Source `_getComponentTypeName(options)`: `options.name || options._componentTag
|| this._nameCache[options.uid]`, else the classified basename of
`options.__file`.  NOTE the source reads the cache at `options.uid`, i.e.
the uid field of `instance.type`, not `instance.uid` (the source itself
carries a `// TODO check .uid` remark there). -/
def getComponentTypeName (cache : List (Nat × String)) (t : Option CompType) :
    Option String :=
  match t with
  | none => none
  | some o =>
    match jsTruthy o.name with
    | some n => some n
    | none =>
      match jsTruthy o.componentTag with
      | some n => some n
      | none =>
        match jsTruthy (match o.uid with
          | some u => lookupCache cache u
          | none => none) with
        | some n => some n
        | none =>
          match jsTruthy o.file with
          | some f => some (classify (basename f ".vue"))
          | none => none

/-- Source `_saveComponentName(instance, name)`: store under `instance.uid`. -/
def saveComponentName (cache : List (Nat × String)) (vm : VmInstance)
    (n : String) : List (Nat × String) × String :=
  ((vm.uid, n) :: cache, n)

/-- One `for (const key in comps) if (comps[key] === instance.type) return
key` scan. -/
def scanFor (comps : List (String × Nat)) (t : Option CompType) :
    Option String :=
  match t with
  | none => none
  | some ty => (comps.find? (fun p => p.2 == ty.tid)).map (fun p => p.1)

/-- Source `_getComponentName(instance)`.  Returns the possibly-extended cache, the
resolved name, and whether the fallback scan (over the parent's component
map / the app-wide registry) was reached. -/
def getComponentName (cache : List (Nat × String)) (vm : VmInstance) :
    List (Nat × String) × String × Bool :=
  match jsTruthy (getComponentTypeName cache vm.type) with
  | some n => (cache, n, false)
  | none =>
    if vm.isRootVm then (cache, "Root", false)
    else
      match scanFor vm.parentComponents vm.type with
      | some key =>
        let p := saveComponentName cache vm key
        (p.1, p.2, true)
      | none =>
        match scanFor vm.appComponents vm.type with
        | some key =>
          let p := saveComponentName cache vm key
          (p.1, p.2, true)
        | none => (cache, "Anonymous Component", true)

/-! ## Error interception (`_attachErrorHandler`) -/

/-- The option fields the installed error handler consults, plus whether a
previous `app.config.errorHandler` existed. -/
structure ErrOptions where
  hasPrevHandler : Bool
  attachProps : Bool
  logErrors : Bool
deriving DecidableEq, Repr

/-- Source `interface Metadata` (props held opaquely). -/
structure Metadata where
  componentName : Option String := none
  propsData : Option Nat := none
  lifecycleHook : Option String := none
deriving DecidableEq, Repr

/-- Ordered observable effects of one error-handler invocation. -/
inductive ErrEffect
  | warnLog (msg : String)
  | scheduleCapture (err : Nat) (meta : Metadata)
  | callPrevHandler (err : Nat) (vm : Option Nat) (info : Option String)
  | consoleError (err : Nat)
deriving DecidableEq, Repr

/-- The `try { ... } catch` block extracting metadata from a component:
`_getComponentName` and the `vm.$props` access may each throw; a throw is
caught, logged, and leaves whatever fields were already assigned. -/
def extractMetadata (attachProps : Bool) (resolveName : Except Unit String)
    (getProps : Except Unit Nat) : Metadata × List ErrEffect :=
  match resolveName with
  | .error _ => ({}, [.warnLog "Unable to extract metadata from Vue component."])
  | .ok n =>
    if attachProps then
      match getProps with
      | .error _ =>
        ({ componentName := some n },
         [.warnLog "Unable to extract metadata from Vue component."])
      | .ok p => ({ componentName := some n, propsData := some p }, [])
    else ({ componentName := some n }, [])

/-- The `if (vm) { try ... }` part: no component, no metadata fields. -/
def errBaseMeta (o : ErrOptions) (resolveName : Except Unit String)
    (getProps : Except Unit Nat) (vm : Option Nat) :
    Metadata × List ErrEffect :=
  match vm with
  | none => (({} : Metadata), ([] : List ErrEffect))
  | some _ => extractMetadata o.attachProps resolveName getProps

/-- Source `if (info) metadata.lifecycleHook = info` (with JS truthiness). -/
def withLifecycleHook (m : Metadata) (info : Option String) : Metadata :=
  match info with
  | some s => if s = "" then m else { m with lifecycleHook := some s }
  | none => m

/-- The error handler installed by `_attachErrorHandler`, as the ordered
list of effects of one invocation on `(err, vm, info)`: metadata
extraction (with its possible warning), the deferred capture, then the
previously-installed handler with the original arguments if one existed,
then the optional console log.  Note it never consults any trace state. -/
def errorHandler (o : ErrOptions) (resolveName : Except Unit String)
    (getProps : Except Unit Nat) (err : Nat) (vm : Option Nat)
    (info : Option String) : List ErrEffect :=
  (errBaseMeta o resolveName getProps vm).2
    ++ [.scheduleCapture err
          (withLifecycleHook (errBaseMeta o resolveName getProps vm).1 info)]
    ++ (if o.hasPrevHandler then [.callPrevHandler err vm info] else [])
    ++ (if o.logErrors then [.consoleError err] else [])

/-! ## `setup()` (`VueHelper.setup` and `_startTracing`) -/

/-- Top-level effects of `setup()`. -/
inductive SetupEffect
  | attachedErrorHandler
  | installedMixin
deriving DecidableEq, Repr

/-- The option keys `setup()` tests with the `in` operator, plus the tracing
options. -/
structure SetupOptions where
  hasTracesSampleRate : Bool
  hasTracesSampler : Bool
  tracingOptions : TracingOptions
deriving DecidableEq, Repr

/-- Source `setup()`: always attach the error handler; start tracing (install the
`beforeCreate` mixin) only when a traces key is present. -/
def setup (o : SetupOptions) : List SetupEffect :=
  [.attachedErrorHandler] ++
    (if o.hasTracesSampleRate || o.hasTracesSampler then [.installedMixin]
     else [])

/-- Component creations after `setup()`: when the tracing mixin was
installed, each created instance's `beforeCreate` runs
`_applyTracingHooks`; otherwise nothing runs and no hooks are injected. -/
def mixinBeforeCreate (o : SetupOptions) (w : World) (uids : List Nat) :
    World :=
  if SetupEffect.installedMixin ∈ setup o then
    uids.foldl (fun w u => step o.tracingOptions w (.install u)) w
  else w

/-! ## Specification-side observables -/

/-- Is this event a child-handler span start? -/
def Event.isChildStart : Event → Bool
  | .startChild _ (.child _ _) _ _ _ _ => true
  | _ => false

/-- Is this event a span start by the child handler of instance `uid` for
operation `op`? -/
def isStartFor (uid : Nat) (op : Operation) : Event → Bool
  | .startChild _ (.child u o) _ _ _ _ => u == uid && o == op
  | _ => false

/-- How many child spans the log records as started for `(uid, op)`. -/
def countStarts (evs : List Event) (uid : Nat) (op : Operation) : Nat :=
  (evs.filter (isStartFor uid op)).length

/-- The span slot of `(uid, op)` as seen through instance lookup. -/
def slotOf (w : World) (uid : Nat) (op : Operation) : Option Nat :=
  match findInst w uid with
  | some i => i.spans.get op
  | none => none

/-- Per-pair linkage between a span slot and the event log: an empty slot
means no span was ever started for the pair, and at most one was ever
started. -/
def PairInv (evs : List Event) (s : Option Nat) (uid : Nat)
    (op : Operation) : Prop :=
  (s = none → countStarts evs uid op = 0) ∧ countStarts evs uid op ≤ 1

/-- The span slot of `(uid, op)` looked up in a list of instances. -/
def slotFind (l : List Inst) (uid : Nat) (op : Operation) : Option Nat :=
  match l.find? (fun j => j.uid == uid) with
  | some i => i.spans.get op
  | none => none

/-- Run invariant tying slots to the log: an empty slot means no span was
ever started for the pair, and no pair ever starts more than one span. -/
def SlotInv (w : World) : Prop :=
  ∀ uid op, PairInv w.events (slotOf w uid op) uid op

/-- Property `PairInv` for every operation slot of one instance. -/
def InstInv (evs : List Event) (i : Inst) : Prop :=
  ∀ op, PairInv evs (i.spans.get op) i.uid op

/-! ## Concrete fixtures used by counterexamples and witnesses -/

/-- Tracing options: track everything, `timeout=100`, `hooks=['mount']`. -/
def cfgMount : TracingOptions :=
  { trackComponents := .flag true, timeout := 100, hooks := [.mount] }

/-- Tracing options: track everything, `timeout=100`, `hooks=['update']`. -/
def cfgUpdate : TracingOptions :=
  { trackComponents := .flag true, timeout := 100, hooks := [.update] }

/-- Tracing options: tracking disabled, `timeout=100`, `hooks=['mount']`. -/
def cfgNoTrack : TracingOptions :=
  { trackComponents := .flag false, timeout := 100, hooks := [.mount] }

/-- A world with an active transaction `tid`, a root instance (uid 0) and
one non-root instance named `nm` (uid 1), nothing instrumented yet. -/
def widgetWorld (nm : String) (tid : Nat) : World :=
  { activeTransaction := some tid,
    root := { uid := 0, isRoot := true, name := "Root" },
    children := [{ uid := 1, isRoot := false, name := nm }] }

/-- The standard fixture world: transaction `0`, child named `"Widget"`. -/
def w0 : World := widgetWorld "Widget" 0

/-- Fixture: instrument the Widget instance and run two full update
before/after rounds (`bu,u,bu,u`); the `bu@12` firing starts the update
span, the `u@13` firing finds it in the slot and finishes it. -/
def updRun4 : World :=
  run cfgUpdate w0
    [.install 1, .fire 1 .bu 10, .fire 1 .u 11, .fire 1 .bu 12, .fire 1 .u 13]

/-- Fixture instance for name resolution: anonymous type descriptor
(identity 3, no name/tag/uid/file), not the root, registered in the
parent's component map under `"Widget"`. -/
def vmWidget : VmInstance :=
  { uid := 7, type := some { tid := 3 }, isRootVm := false,
    parentComponents := [("Widget", 3)] }

/-! ## Helper lemmas -/

theorem finishRootSpan_rootSpan (t : Nat) (h : VueHelperState) :
    (finishRootSpan t h).rootSpan = h.rootSpan := rfl

theorem finishRootSpan_installCache (t : Nat) (h : VueHelperState) :
    (finishRootSpan t h).installCache = h.installCache := rfl

theorem foldl_finishRootSpan_rootSpan (l : List Nat) (h0 : VueHelperState) :
    (l.foldl (fun h t => finishRootSpan t h) h0).rootSpan = h0.rootSpan := by
  induction l generalizing h0 with
  | nil => rfl
  | cons a rest ih => simpa [finishRootSpan] using ih (finishRootSpan a h0)

theorem foldl_finishRootSpan_installCache (l : List Nat) (h0 : VueHelperState) :
    (l.foldl (fun h t => finishRootSpan t h) h0).installCache =
      h0.installCache := by
  induction l generalizing h0 with
  | nil => rfl
  | cons a rest ih => simpa [finishRootSpan] using ih (finishRootSpan a h0)

/-! ## Claim theorems -/

/-- C3: for every sequence of calls to `_finishRootSpan` with timestamps
`t1..tN` (`ts ++ [tN]`, so `N ≥ 1`) followed by the pending idle timer
expiring un-superseded, the root span's `finish` is invoked exactly once,
with the timestamp `tN` captured at the last rescheduling (not the time the
timer fires), and `_rootSpan` is cleared to empty.  The expiry emits exactly
the one `finishSpan` event; the scheduling calls emit none by construction. -/
theorem c3_debounce_finishes_once_at_last_timestamp
    (h0 : VueHelperState) (sid : Nat) (ts : List Nat) (tN : Nat)
    (hroot : h0.rootSpan = some sid) :
    rootTimerExpire ((ts ++ [tN]).foldl (fun h t => finishRootSpan t h) h0) =
      ({ h0 with rootSpan := none, rootSpanTimer := none },
       [Event.finishSpan sid tN]) := by
  have h1 := foldl_finishRootSpan_rootSpan ts h0
  have h2 := foldl_finishRootSpan_installCache ts h0
  rw [List.foldl_append]
  revert h1 h2
  generalize ts.foldl (fun h t => finishRootSpan t h) h0 = y
  intro h1 h2
  obtain ⟨yic, yrs, yrt⟩ := y
  simp only at h1 h2
  subst h1 h2
  rw [hroot]
  rfl

/-- Witness for C3 at a concrete input: root span `0` open, reschedulings
at timestamps `5` then `7`, then expiry. -/
theorem c3_debounce_finishes_once_at_last_timestamp_witness :
    ({ installCache := [], rootSpan := some 0, rootSpanTimer := none } :
        VueHelperState).rootSpan = some 0 ∧
    rootTimerExpire (([5] ++ [7]).foldl (fun h t => finishRootSpan t h)
        { installCache := [], rootSpan := some 0, rootSpanTimer := none }) =
      ({ installCache := [], rootSpan := none, rootSpanTimer := none },
       [Event.finishSpan 0 7]) :=
  ⟨rfl, c3_debounce_finishes_once_at_last_timestamp _ 0 [5] 7 rfl⟩

/-- C9: running `_applyTracingHooks` a second time for the same instance
identity is a complete no-op: the `_installCache` flag is checked and set
before any processing, so no hooks are re-registered and no state changes. -/
theorem c9_install_idempotent (cfg : TracingOptions) (w : World) (uid : Nat) :
    step cfg (step cfg w (.install uid)) (.install uid) =
      step cfg w (.install uid) := by
  by_cases h : uid ∈ w.helper.installCache
  · simp [step, h]
  · by_cases hr : w.root.uid == uid
    · simp [step, h, hr]
    · simp [step, h, hr]

/-- C7: whenever a previously-installed host error callback existed, every
invocation of the installed global error handler re-invokes it with the
original arguments `(err, vm, info)`, strictly after the capture call has
been scheduled — unconditionally: for every metadata-extraction outcome
(`resolveName`/`getProps` may throw) and independently of any trace (the
handler consults no trace state at all). -/
theorem c7_prev_handler_called_after_capture (o : ErrOptions)
    (resolveName : Except Unit String) (getProps : Except Unit Nat)
    (err : Nat) (vm : Option Nat) (info : Option String)
    (h : o.hasPrevHandler = true) :
    ∃ pre post, errorHandler o resolveName getProps err vm info =
      pre ++ ErrEffect.callPrevHandler err vm info :: post ∧
      (∃ m, ErrEffect.scheduleCapture err m ∈ pre) := by
  refine ⟨(errBaseMeta o resolveName getProps vm).2 ++
      [ErrEffect.scheduleCapture err
        (withLifecycleHook (errBaseMeta o resolveName getProps vm).1 info)],
    (if o.logErrors then [ErrEffect.consoleError err] else []),
    ?_,
    ⟨withLifecycleHook (errBaseMeta o resolveName getProps vm).1 info,
      by simp⟩⟩
  simp [errorHandler, h, List.append_assoc]

/-- Witness for C7: metadata extraction fails entirely, `logErrors` off. -/
theorem c7_prev_handler_called_after_capture_witness :
    ({ hasPrevHandler := true, attachProps := true, logErrors := false } :
        ErrOptions).hasPrevHandler = true ∧
    (∃ pre post,
      errorHandler
          { hasPrevHandler := true, attachProps := true, logErrors := false }
          (.error ()) (.error ()) 9 (some 4) (some "beforeUpdate") =
        pre ++ ErrEffect.callPrevHandler 9 (some 4) (some "beforeUpdate")
          :: post ∧
      (∃ m, ErrEffect.scheduleCapture 9 m ∈ pre)) :=
  ⟨rfl, c7_prev_handler_called_after_capture _ _ _ _ _ _ rfl⟩

/-- C10: `setup()` always attaches the error handler; it installs the
tracing mixin exactly when the options carry a `tracesSampleRate` or
`tracesSampler` key; without either key, component creations inject no
lifecycle hooks whatsoever (the world is untouched), regardless of
`tracingOptions`. -/
theorem c10_setup_gates_tracing (o : SetupOptions) (w : World)
    (uids : List Nat) (h1 : o.hasTracesSampleRate = false)
    (h2 : o.hasTracesSampler = false) :
    (∀ o' : SetupOptions, SetupEffect.attachedErrorHandler ∈ setup o') ∧
    (∀ o' : SetupOptions,
      (SetupEffect.installedMixin ∈ setup o' ↔
        (o'.hasTracesSampleRate || o'.hasTracesSampler) = true)) ∧
    mixinBeforeCreate o w uids = w := by
  refine ⟨fun o' => by simp [setup], fun o' => ?_, ?_⟩
  · cases hb : (o'.hasTracesSampleRate || o'.hasTracesSampler) <;>
      simp [setup, hb]
  · simp [mixinBeforeCreate, setup, h1, h2]

/-- Witness for C10: options with neither traces key, arbitrary tracing
options, two instance creations. -/
theorem c10_setup_gates_tracing_witness :
    ({ hasTracesSampleRate := false, hasTracesSampler := false,
       tracingOptions := cfgMount } : SetupOptions).hasTracesSampleRate
        = false ∧
    ({ hasTracesSampleRate := false, hasTracesSampler := false,
       tracingOptions := cfgMount } : SetupOptions).hasTracesSampler
        = false ∧
    ((∀ o' : SetupOptions, SetupEffect.attachedErrorHandler ∈ setup o') ∧
     (∀ o' : SetupOptions,
       (SetupEffect.installedMixin ∈ setup o' ↔
         (o'.hasTracesSampleRate || o'.hasTracesSampler) = true)) ∧
     mixinBeforeCreate
        { hasTracesSampleRate := false, hasTracesSampler := false,
          tracingOptions := cfgMount } w0 [0, 1] = w0) :=
  ⟨rfl, rfl, c10_setup_gates_tracing _ w0 [0, 1] rfl rfl⟩

/-- C1 counterexample: in `updRun4` the `u@13` firing found span `0` in the
update slot (witness: the `finishSpan 0 13` event) and called
`_finishRootSpan(13)` (witness: the pending timer), yet the slot still
holds span `0` afterwards — the handler does NOT clear the slot, so no
later "after" firing can ever open a fresh update span for this instance. -/
theorem c1_counterexample_slot_not_cleared :
    updRun4.events =
      [Event.startChild 0 (.child 1 .update) (.transaction 0)
        "Vue <Widget>" "update" 12,
       Event.finishSpan 0 13] ∧
    updRun4.helper.rootSpanTimer = some 13 ∧
    slotOf updRun4 1 .update = some 0 := by
  refine ⟨rfl, rfl, rfl⟩

/-- C1 amended: when a firing finds a span in the operation's slot (and the
track/parent guard passes), the handler finishes that span at `now` and
calls `finishRootSpan(now)`, but leaves the slot — and all instance
state — unchanged (the slot is not cleared). -/
theorem c1_amended_refinish_keeps_slot (cfg : TracingOptions)
    (op : Operation) (now exec : Nat) (w : World) (i : Inst) (sid : Nat)
    (h1 : shouldTrack cfg i.name = true) (h2 : childOfW w ≠ none)
    (h3 : i.spans.get op = some sid) :
    childHandler cfg op now exec w i =
      ({ w with events := w.events ++ [Event.finishSpan sid now],
                helper := finishRootSpan now w.helper }, i) := by
  cases hco : childOfW w with
  | none => exact absurd hco h2
  | some p => simp [childHandler, hco, h1, h3]

/-- Witness for the amended C1 at a concrete input. -/
theorem c1_amended_refinish_keeps_slot_witness :
    shouldTrack cfgUpdate
      ({ uid := 1, isRoot := false, name := "Widget",
         spans := { update := some 0 } } : Inst).name = true ∧
    childOfW w0 ≠ none ∧
    ({ uid := 1, isRoot := false, name := "Widget",
       spans := { update := some 0 } } : Inst).spans.get .update = some 0 ∧
    childHandler cfgUpdate .update 13 1 w0
        { uid := 1, isRoot := false, name := "Widget",
          spans := { update := some 0 } } =
      ({ w0 with events := w0.events ++ [Event.finishSpan 0 13],
                 helper := finishRootSpan 13 w0.helper },
       { uid := 1, isRoot := false, name := "Widget",
         spans := { update := some 0 } }) :=
  ⟨rfl, by decide, rfl,
    c1_amended_refinish_keeps_slot _ _ _ _ _ _ _ rfl (by decide) rfl⟩

/-- C2 counterexample: with `hooks=['mount']`, `timeout=100`,
`trackComponents=true` and transaction `0` active, the non-root `"Widget"`
instance fires `beforeMount` then `mounted`; the `mounted` firing passes
execution counter 0 (each hook's injected callback has its own counter),
so NO child span opens — the event log stays empty and the mount slot
stays empty, contrary to the claim. -/
theorem c2_counterexample_mounted_opens_nothing :
    (run cfgMount w0 [.install 1, .fire 1 .bm 0, .fire 1 .m 0]).events
      = [] ∧
    slotOf (run cfgMount w0 [.install 1, .fire 1 .bm 0, .fire 1 .m 0])
      1 .mount = none := by
  refine ⟨rfl, rfl⟩

/-- C2 amended: `beforeMount` is a no-op AND the immediately following
`mounted` firing is also a no-op (its callback's own counter is 0, not 1);
a child span for the mount operation (description naming the component and
the operation, parented under the root span if open else the active trace)
opens only when one of the mount hooks fires a second time with the slot
empty — here a second `mounted` firing. -/
theorem c2_amended_span_opens_on_second_hook_firing (nm : String)
    (tid t1 t2 t3 : Nat) :
    (run cfgMount (widgetWorld nm tid)
        [.install 1, .fire 1 .bm t1, .fire 1 .m t2]).events = [] ∧
    (run cfgMount (widgetWorld nm tid)
        [.install 1, .fire 1 .bm t1, .fire 1 .m t2, .fire 1 .m t3]).events =
      [Event.startChild 0 (.child 1 .mount) (.transaction tid)
        ("Vue <" ++ nm ++ ">") "mount" t3] ∧
    slotOf (run cfgMount (widgetWorld nm tid)
        [.install 1, .fire 1 .bm t1, .fire 1 .m t2, .fire 1 .m t3])
      1 .mount = some 0 := by
  refine ⟨rfl, rfl, rfl⟩

/-- C4 counterexample: root instance, `hooks=['mount']`, transaction `0`
active for the whole run; the first instrumented hook pair fires
before (`bm@5`) and after (`m@6`) — its second firing — yet no root span
is created (both callbacks pass execution counter 0). -/
theorem c4_counterexample_pair_second_firing_creates_nothing :
    (run cfgMount w0 [.install 0, .fire 0 .bm 5, .fire 0 .m 6]).events
      = [] ∧
    (run cfgMount w0
      [.install 0, .fire 0 .bm 5, .fire 0 .m 6]).helper.rootSpan
      = none := by
  refine ⟨rfl, rfl⟩

/-- C4 amended: a firing of the root handler creates a root span exactly
when no root span is open, the fired callback's own execution counter
equals 1 (it is that callback's second invocation — possibly a
before-phase hook firing again), and a trace is active; in particular
never on a callback's first (counter-0) invocation and never without an
active trace. -/
theorem c4_amended_root_span_creation_iff (now exec : Nat) (w : World) :
    (w.helper.rootSpan = none ∧
      (rootHandler now exec w).helper.rootSpan ≠ none) ↔
    (w.helper.rootSpan = none ∧ exec = 1 ∧
      w.activeTransaction ≠ none) := by
  unfold rootHandler
  cases hrs : w.helper.rootSpan with
  | some s => simp [hrs, finishRootSpan]
  | none =>
    cases hat : w.activeTransaction with
    | none => by_cases he : exec = 1 <;> simp [hrs, hat, he]
    | some tid => by_cases he : exec = 1 <;> simp [hrs, hat, he]

/-- C5 (code bug): resolving the anonymous `vmWidget` twice yields
`"Widget"` both times, but the fallback scan runs on BOTH calls (third
component `true` twice) even though the first call cached
`(7, "Widget")` under the instance's uid: `_getComponentTypeName` looks
the cache up under `options.uid` — the uid field of `instance.type`,
absent here as on ordinary Vue type descriptors — instead of
`instance.uid` under which `_saveComponentName` stored it (the source
marks the spot `// TODO check .uid`), so the second call even appends a
duplicate cache entry. -/
theorem c5_cache_never_hit_scan_repeats :
    getComponentName [] vmWidget = ([(7, "Widget")], "Widget", true) ∧
    getComponentName [(7, "Widget")] vmWidget =
      ([(7, "Widget"), (7, "Widget")], "Widget", true) := by
  refine ⟨rfl, rfl⟩

/-- C8 counterexample: in `updRun4` span `0` is already finished (event
`finishSpan 0 13`), so no span is open for `(Widget, update)`; yet a
further "after" firing `u@14` is NOT a no-op: it emits another finish for
the same span and reschedules the root debounce timer. -/
theorem c8_counterexample_refinish_not_noop :
    Event.finishSpan 0 13 ∈ updRun4.events ∧
    slotOf updRun4 1 .update = some 0 ∧
    (step cfgUpdate updRun4 (.fire 1 .u 14)).events =
      updRun4.events ++ [Event.finishSpan 0 14] ∧
    (step cfgUpdate updRun4 (.fire 1 .u 14)).helper.rootSpanTimer
      = some 14 ∧
    step cfgUpdate updRun4 (.fire 1 .u 14) ≠ updRun4 := by
  refine ⟨by decide, rfl, rfl, rfl, by decide⟩

theorem childHandler_noTrack (cfg : TracingOptions) (op : Operation)
    (now exec : Nat) (w : World) (i : Inst)
    (h : cfg.trackComponents = .flag false) :
    childHandler cfg op now exec w i = (w, i) := by
  have hst : shouldTrack cfg i.name = false := by simp [shouldTrack, h]
  cases hco : childOfW w with
  | none => simp [childHandler, hco, hst]
  | some p => simp [childHandler, hco, hst]

theorem rootHandler_frame (now exec : Nat) (w : World) :
    (rootHandler now exec w).root = w.root ∧
    (rootHandler now exec w).children = w.children ∧
    ∃ l, (rootHandler now exec w).events = w.events ++ l ∧
      ∀ ev ∈ l, ev.isChildStart = false := by
  unfold rootHandler
  cases hrs : w.helper.rootSpan with
  | some s => exact ⟨rfl, rfl, [], by simp, by simp⟩
  | none =>
    by_cases he : exec = 1
    · rw [if_pos he]
      cases hat : w.activeTransaction with
      | none => exact ⟨rfl, rfl, [], by simp, by simp⟩
      | some tid =>
        exact ⟨rfl, rfl,
          [Event.startChild w.nextSid .rootRender (.transaction tid)
            "Application Render" "Vue" now],
          rfl, by simp [Event.isChildStart]⟩
    · rw [if_neg he]
      exact ⟨rfl, rfl, [], by simp, by simp⟩

theorem fireCb_frame_noTrack (cfg : TracingOptions) (now : Nat) (w : World)
    (i : Inst) (cb : LifecycleHook × Operation × Nat)
    (h : cfg.trackComponents = .flag false) :
    (fireCb cfg now w i cb).1.root = w.root ∧
    (fireCb cfg now w i cb).1.children = w.children ∧
    ∃ l, (fireCb cfg now w i cb).1.events = w.events ++ l ∧
      ∀ ev ∈ l, ev.isChildStart = false := by
  unfold fireCb
  by_cases hu : i.isUnmounted
  · exact ⟨by simp [hu], by simp [hu], [], by simp [hu], by simp⟩
  · by_cases hr : i.isRoot
    · have hf := rootHandler_frame now (i.counters.getD cb.2.2 0) w
      simpa [hu, hr] using hf
    · have hch : ∀ (op : Operation) (exec : Nat) (j : Inst),
          childHandler cfg op now exec w j = (w, j) :=
        fun op exec j => childHandler_noTrack cfg op now exec w j h
      exact ⟨by simp [hu, hr, hch], by simp [hu, hr, hch], [],
        by simp [hu, hr, hch], by simp⟩

theorem foldl_fireCb_frame_noTrack (cfg : TracingOptions) (now : Nat)
    (h : cfg.trackComponents = .flag false)
    (cbs : List (LifecycleHook × Operation × Nat)) :
    ∀ (w : World) (i : Inst),
    (cbs.foldl (fun p cb => fireCb cfg now p.1 p.2 cb) (w, i)).1.root
        = w.root ∧
    (cbs.foldl (fun p cb => fireCb cfg now p.1 p.2 cb) (w, i)).1.children
        = w.children ∧
    ∃ l, (cbs.foldl (fun p cb => fireCb cfg now p.1 p.2 cb) (w, i)).1.events
        = w.events ++ l ∧ ∀ ev ∈ l, ev.isChildStart = false := by
  induction cbs with
  | nil => intro w i; exact ⟨rfl, rfl, [], by simp, by simp⟩
  | cons cb rest ih =>
    intro w i
    rw [List.foldl_cons]
    obtain ⟨hr1, hc1, l1, he1, hp1⟩ := fireCb_frame_noTrack cfg now w i cb h
    obtain ⟨hr2, hc2, l2, he2, hp2⟩ :=
      ih (fireCb cfg now w i cb).1 (fireCb cfg now w i cb).2
    refine ⟨hr2.trans hr1, hc2.trans hc1, l1 ++ l2, ?_, ?_⟩
    · rw [he2, he1, List.append_assoc]
    · intro ev hev
      rcases List.mem_append.mp hev with h1 | h2
      · exact hp1 ev h1
      · exact hp2 ev h2

theorem rootTimerExpire_events (h : VueHelperState) :
    ∀ ev ∈ (rootTimerExpire h).2, ev.isChildStart = false := by
  unfold rootTimerExpire
  cases h.rootSpanTimer with
  | none => simp
  | some t =>
    cases h.rootSpan with
    | none => simp
    | some sid => simp [Event.isChildStart]

theorem step_events_noTrack (cfg : TracingOptions) (w : World) (e : WEvent)
    (h : cfg.trackComponents = .flag false) :
    ∃ l, (step cfg w e).events = w.events ++ l ∧
      ∀ ev ∈ l, ev.isChildStart = false := by
  cases e with
  | setTransaction o => exact ⟨[], by simp [step], by simp⟩
  | expire =>
    exact ⟨(rootTimerExpire w.helper).2, by simp [step],
      rootTimerExpire_events w.helper⟩
  | install uid =>
    by_cases h1 : uid ∈ w.helper.installCache
    · exact ⟨[], by simp [step, h1], by simp⟩
    · by_cases h2 : w.root.uid == uid
      · exact ⟨[], by simp [step, h1, h2], by simp⟩
      · exact ⟨[], by simp [step, h1, h2], by simp⟩
  | fire uid hk t =>
    by_cases hr : w.root.uid == uid
    · obtain ⟨_, _, l, he, hp⟩ := foldl_fireCb_frame_noTrack cfg t h
        (w.root.cbs.filter (fun cb => cb.1 == hk)) w w.root
      exact ⟨l, by simpa [step, hr, fireHook] using he, hp⟩
    · cases hf : w.children.find? (fun i => i.uid == uid) with
      | none => exact ⟨[], by simp [step, hr, hf], by simp⟩
      | some i =>
        obtain ⟨_, _, l, he, hp⟩ := foldl_fireCb_frame_noTrack cfg t h
          (i.cbs.filter (fun cb => cb.1 == hk)) w i
        exact ⟨l, by simpa [step, hr, hf, fireHook] using he, hp⟩

theorem run_events_noTrack (cfg : TracingOptions) (es : List WEvent)
    (h : cfg.trackComponents = .flag false) :
    ∀ (w : World), ∃ l, (run cfg w es).events = w.events ++ l ∧
      ∀ ev ∈ l, ev.isChildStart = false := by
  induction es with
  | nil => intro w; exact ⟨[], by simp [run], by simp⟩
  | cons e rest ih =>
    intro w
    obtain ⟨l1, he1, hp1⟩ := step_events_noTrack cfg w e h
    obtain ⟨l2, he2, hp2⟩ := ih (step cfg w e)
    refine ⟨l1 ++ l2, ?_, ?_⟩
    · show (run cfg (step cfg w e) rest).events = _
      rw [he2, he1, List.append_assoc]
    · intro ev hev
      rcases List.mem_append.mp hev with h1 | h2
      · exact hp1 ev h1
      · exact hp2 ev h2

/-- C6: when `trackComponents` is `false`, no child span is ever created by
any non-root instance's handler, for every sequence of events and every
hooks configuration: every child-handler span start in the final log was
already in the initial log, and the child handler itself returns before
any span creation or state mutation (it is the identity). -/
theorem c6_no_child_spans_when_not_tracking (cfg : TracingOptions)
    (w0 : World) (es : List WEvent)
    (h : cfg.trackComponents = .flag false) :
    (∀ ev ∈ (run cfg w0 es).events, ev.isChildStart = true →
      ev ∈ w0.events) ∧
    (∀ (op : Operation) (now exec : Nat) (w : World) (i : Inst),
      childHandler cfg op now exec w i = (w, i)) := by
  refine ⟨?_, fun op now exec w i => childHandler_noTrack _ _ _ _ _ _ h⟩
  obtain ⟨l, he, hp⟩ := run_events_noTrack cfg es h w0
  rw [he]
  intro ev hev hcs
  rcases List.mem_append.mp hev with h1 | h2
  · exact h1
  · rw [hp ev h2] at hcs
    exact absurd hcs (by simp)

/-- Witness for C6: tracking disabled, the usual mount scenario run. -/
theorem c6_no_child_spans_when_not_tracking_witness :
    cfgNoTrack.trackComponents = .flag false ∧
    ((∀ ev ∈ (run cfgNoTrack w0
          [.install 1, .fire 1 .bm 0, .fire 1 .m 0]).events,
        ev.isChildStart = true → ev ∈ w0.events) ∧
     (∀ (op : Operation) (now exec : Nat) (w : World) (i : Inst),
       childHandler cfgNoTrack op now exec w i = (w, i))) :=
  ⟨rfl, c6_no_child_spans_when_not_tracking cfgNoTrack w0
    [.install 1, .fire 1 .bm 0, .fire 1 .m 0] rfl⟩

theorem countStarts_append (a b : List Event) (uid : Nat) (op : Operation) :
    countStarts (a ++ b) uid op =
      countStarts a uid op + countStarts b uid op := by
  simp [countStarts, List.filter_append]

theorem countStarts_nil_of_noChild (l : List Event) (uid : Nat)
    (op : Operation) (h : ∀ ev ∈ l, ev.isChildStart = false) :
    countStarts l uid op = 0 := by
  induction l with
  | nil => rfl
  | cons ev rest ih =>
    have h2 : isStartFor uid op ev = false := by
      have h1 := h ev (List.mem_cons_self ev rest)
      cases ev with
      | startChild sid k pr d os t =>
        cases k with
        | rootRender => rfl
        | child u o => simp [Event.isChildStart] at h1
      | finishSpan sid t => rfl
    have ih2 := ih (fun e he => h e (List.mem_cons_of_mem ev he))
    simpa [countStarts, List.filter_cons, h2] using ih2

theorem countStarts_finish (sid t uid : Nat) (op : Operation) :
    countStarts [Event.finishSpan sid t] uid op = 0 := rfl

theorem countStarts_childStart_self (sid u : Nat) (o : Operation)
    (pr : SpanParent) (d os : String) (t : Nat) :
    countStarts [Event.startChild sid (.child u o) pr d os t] u o = 1 := by
  simp [countStarts, isStartFor, List.filter]

theorem countStarts_childStart_other (sid u : Nat) (o : Operation)
    (pr : SpanParent) (d os : String) (t uid : Nat) (op : Operation)
    (h : ¬(u = uid ∧ o = op)) :
    countStarts [Event.startChild sid (.child u o) pr d os t] uid op = 0 := by
  have hb : (u == uid && o == op) = false := by
    cases h1 : u == uid with
    | false => simp
    | true =>
      cases h2 : o == op with
      | false => simp
      | true => exact absurd ⟨eq_of_beq h1, eq_of_beq h2⟩ h
  simp [countStarts, isStartFor, List.filter, hb]

theorem SpanSlots.get_set_self (s : SpanSlots) (op : Operation) (sid : Nat) :
    (s.set op sid).get op = some sid := by
  cases op <;> rfl

theorem SpanSlots.get_set_ne (s : SpanSlots) (op op' : Operation)
    (sid : Nat) (h : op' ≠ op) : (s.set op sid).get op' = s.get op' := by
  cases op <;> cases op' <;> first | exact absurd rfl h | rfl

theorem childHandler_refinish (cfg : TracingOptions) (op : Operation)
    (now exec : Nat) (w : World) (i : Inst) (sid : Nat)
    (h1 : shouldTrack cfg i.name = true) (h2 : childOfW w ≠ none)
    (h3 : i.spans.get op = some sid) :
    childHandler cfg op now exec w i =
      ({ w with events := w.events ++ [Event.finishSpan sid now],
                helper := finishRootSpan now w.helper }, i) := by
  cases hco : childOfW w with
  | none => exact absurd hco h2
  | some p => simp [childHandler, hco, h1, h3]

theorem childHandler_noop_empty_slot (cfg : TracingOptions) (op : Operation)
    (now exec : Nat) (w : World) (i : Inst)
    (h1 : i.spans.get op = none) (h2 : exec ≠ 1) :
    childHandler cfg op now exec w i = (w, i) := by
  cases hco : childOfW w with
  | none => simp [childHandler, hco]
  | some p =>
    cases hst : shouldTrack cfg i.name with
    | false => simp [childHandler, hco, hst]
    | true => simp [childHandler, hco, hst, h1, h2]

theorem childHandler_cases (cfg : TracingOptions) (op : Operation)
    (now exec : Nat) (w : World) (i : Inst) :
    childHandler cfg op now exec w i = (w, i) ∨
    (∃ sid, i.spans.get op = some sid ∧
      childHandler cfg op now exec w i =
        ({ w with events := w.events ++ [Event.finishSpan sid now],
                  helper := finishRootSpan now w.helper }, i)) ∨
    (∃ p, childOfW w = some p ∧ i.spans.get op = none ∧
      childHandler cfg op now exec w i =
        ({ w with nextSid := w.nextSid + 1,
                  events := (w.events ++
                    [Event.startChild w.nextSid (.child i.uid op) p
                      ("Vue <" ++ i.name ++ ">") (opStr op) now]) },
         { i with spans := i.spans.set op w.nextSid })) := by
  cases hco : childOfW w with
  | none => exact Or.inl (by simp [childHandler, hco])
  | some p =>
    cases hst : shouldTrack cfg i.name with
    | false => exact Or.inl (by simp [childHandler, hco, hst])
    | true =>
      cases hsl : i.spans.get op with
      | some sid =>
        exact Or.inr (Or.inl ⟨sid, rfl,
          by simp [childHandler, hco, hst, hsl]⟩)
      | none =>
        by_cases he : exec = 1
        · exact Or.inr (Or.inr ⟨p, rfl, rfl,
            by simp [childHandler, hco, hst, hsl, he]⟩)
        · exact Or.inl (by simp [childHandler, hco, hst, hsl, he])

theorem childHandler_instInv (cfg : TracingOptions) (op : Operation)
    (now exec : Nat) (w : World) (i : Inst)
    (hInv : InstInv w.events i) :
    InstInv (childHandler cfg op now exec w i).1.events
        (childHandler cfg op now exec w i).2 ∧
    (childHandler cfg op now exec w i).2.uid = i.uid ∧
    (childHandler cfg op now exec w i).1.root = w.root ∧
    (childHandler cfg op now exec w i).1.children = w.children ∧
    (∀ uid' op', uid' ≠ i.uid →
      countStarts (childHandler cfg op now exec w i).1.events uid' op' =
        countStarts w.events uid' op') := by
  rcases childHandler_cases cfg op now exec w i with
    hcase | ⟨sid, hsl, hcase⟩ | ⟨p, hco, hsl, hcase⟩
  · rw [hcase]
    exact ⟨hInv, rfl, rfl, rfl, fun _ _ _ => rfl⟩
  · rw [hcase]
    dsimp only
    refine ⟨?_, rfl, rfl, rfl, ?_⟩
    · intro op'
      obtain ⟨p1, p2⟩ := hInv op'
      constructor
      · intro hn
        rw [countStarts_append, p1 hn, countStarts_finish]
      · rw [countStarts_append, countStarts_finish]
        omega
    · intro uid' op' _
      rw [countStarts_append, countStarts_finish]
      omega
  · rw [hcase]
    dsimp
    refine ⟨?_, rfl, rfl, rfl, ?_⟩
    · intro op'
      dsimp only
      by_cases hop : op' = op
      · subst hop
        obtain ⟨p1, p2⟩ := hInv op'
        constructor
        · intro hn
          rw [SpanSlots.get_set_self] at hn
          exact absurd hn (by simp)
        · rw [countStarts_append, p1 hsl, countStarts_childStart_self]
      · obtain ⟨p1, p2⟩ := hInv op'
        have hz : countStarts
            [Event.startChild w.nextSid (.child i.uid op) p
              ("Vue <" ++ i.name ++ ">") (opStr op) now] i.uid op' = 0 :=
          countStarts_childStart_other _ _ _ _ _ _ _ _ _
            (fun hc => hop hc.2.symm)
        rw [SpanSlots.get_set_ne _ _ _ _ hop]
        constructor
        · intro hn
          rw [countStarts_append, p1 hn, hz]
        · rw [countStarts_append, hz]
          omega
    · intro uid' op' hne
      have hz : countStarts
          [Event.startChild w.nextSid (.child i.uid op) p
            ("Vue <" ++ i.name ++ ">") (opStr op) now] uid' op' = 0 :=
        countStarts_childStart_other _ _ _ _ _ _ _ _ _
          (fun hc => hne hc.1.symm)
      rw [countStarts_append, hz]
      omega

theorem foldl_injectHook_frame (hs : List LifecycleHook) (op : Operation) :
    ∀ i : Inst, (hs.foldl (fun i h => injectHook i h op) i).uid = i.uid ∧
      (hs.foldl (fun i h => injectHook i h op) i).spans = i.spans := by
  induction hs with
  | nil => intro i; exact ⟨rfl, rfl⟩
  | cons x rest ih =>
    intro i
    rw [List.foldl_cons]
    exact ⟨(ih (injectHook i x op)).1, (ih (injectHook i x op)).2⟩

theorem applyTracingHooksInst_frame (cfg : TracingOptions) (i : Inst) :
    (applyTracingHooksInst cfg i).uid = i.uid ∧
      (applyTracingHooksInst cfg i).spans = i.spans := by
  unfold applyTracingHooksInst
  generalize cfg.hooks = ops
  induction ops generalizing i with
  | nil => exact ⟨rfl, rfl⟩
  | cons op rest ih =>
    rw [List.foldl_cons]
    obtain ⟨h1, h2⟩ := ih ((HOOKS op).foldl (fun i h => injectHook i h op) i)
    obtain ⟨g1, g2⟩ := foldl_injectHook_frame (HOOKS op) op i
    exact ⟨h1.trans g1, h2.trans g2⟩

theorem slotOf_eq (w : World) (uid : Nat) (op : Operation) :
    slotOf w uid op =
      if w.root.uid == uid then w.root.spans.get op
      else slotFind w.children uid op := by
  unfold slotOf findInst slotFind
  by_cases hr : (w.root.uid == uid) = true
  · simp [hr]
  · simp [hr]

theorem slotFind_map_cond (l : List Inst) (f : Inst → Inst)
    (uid uid' : Nat) (op : Operation)
    (hf : ∀ j, (f j).uid = j.uid ∧ (f j).spans = j.spans) :
    slotFind (l.map (fun j => if j.uid == uid then f j else j)) uid' op =
      slotFind l uid' op := by
  induction l with
  | nil => rfl
  | cons a rest ih =>
    rw [List.map_cons]
    by_cases ha : (a.uid == uid) = true
    · rw [if_pos ha]
      by_cases hb : (a.uid == uid') = true
      · have hb' : ((f a).uid == uid') = true := by rw [(hf a).1]; exact hb
        simp only [slotFind, List.find?_cons_of_pos, hb, hb', (hf a).2]
      · have hb' : ¬((f a).uid == uid') = true := by
          rw [(hf a).1]; exact hb
        simp only [slotFind, List.find?_cons_of_neg, Bool.false_eq_true, not_false_eq_true, hb, hb']
        exact ih
    · rw [if_neg ha]
      by_cases hb : (a.uid == uid') = true
      · simp only [slotFind, List.find?_cons_of_pos, hb]
      · simp only [slotFind, List.find?_cons_of_neg, Bool.false_eq_true, not_false_eq_true, hb]
        exact ih

theorem slotFind_map_replace (l : List Inst) (i i' : Inst) (uid : Nat)
    (op : Operation)
    (hfind : l.find? (fun j => j.uid == uid) = some i)
    (hu : i'.uid = i.uid) :
    slotFind (l.map (fun j => if j.uid == uid then i' else j)) uid op =
      i'.spans.get op := by
  induction l with
  | nil => simp at hfind
  | cons a rest ih =>
    rw [List.map_cons]
    by_cases ha : (a.uid == uid) = true
    · simp only [List.find?_cons_of_pos, ha] at hfind
      have hai : a = i := Option.some.inj hfind
      have hb : (i'.uid == uid) = true := by
        rw [hu, ← hai]
        exact ha
      rw [if_pos ha]
      simp only [slotFind, List.find?_cons_of_pos, hb]
    · simp only [List.find?_cons_of_neg, Bool.false_eq_true, not_false_eq_true, ha] at hfind
      rw [if_neg ha]
      simp only [slotFind, List.find?_cons_of_neg, Bool.false_eq_true, not_false_eq_true, ha]
      exact ih hfind

theorem slotFind_map_replace_ne (l : List Inst) (i' : Inst)
    (uid uid' : Nat) (op : Operation) (hiu : i'.uid = uid)
    (hne : uid' ≠ uid) :
    slotFind (l.map (fun j => if j.uid == uid then i' else j)) uid' op =
      slotFind l uid' op := by
  have huu : (uid == uid') = false := by
    cases hq : uid == uid' with
    | false => rfl
    | true => exact absurd (eq_of_beq hq).symm hne
  induction l with
  | nil => rfl
  | cons a rest ih =>
    rw [List.map_cons]
    by_cases ha : (a.uid == uid) = true
    · have h1 : ¬(i'.uid == uid') = true := by
        rw [hiu, huu]; exact Bool.false_ne_true
      have h2 : ¬(a.uid == uid') = true := by
        rw [eq_of_beq ha, huu]; exact Bool.false_ne_true
      rw [if_pos ha]
      simp only [slotFind, List.find?_cons_of_neg, Bool.false_eq_true, not_false_eq_true, h1, h2]
      exact ih
    · rw [if_neg ha]
      by_cases hb : (a.uid == uid') = true
      · simp only [slotFind, List.find?_cons_of_pos, hb]
      · simp only [slotFind, List.find?_cons_of_neg, Bool.false_eq_true, not_false_eq_true, hb]
        exact ih

theorem fireCb_instInv (cfg : TracingOptions) (now : Nat) (w : World)
    (i : Inst) (cb : LifecycleHook × Operation × Nat)
    (hInv : InstInv w.events i) :
    InstInv (fireCb cfg now w i cb).1.events (fireCb cfg now w i cb).2 ∧
    (fireCb cfg now w i cb).2.uid = i.uid ∧
    (fireCb cfg now w i cb).1.root = w.root ∧
    (fireCb cfg now w i cb).1.children = w.children ∧
    (∀ uid' op', uid' ≠ i.uid →
      countStarts (fireCb cfg now w i cb).1.events uid' op' =
        countStarts w.events uid' op') := by
  cases hu : i.isUnmounted with
  | true =>
    have hres : fireCb cfg now w i cb = (w, i) := by simp [fireCb, hu]
    rw [hres]
    exact ⟨hInv, rfl, rfl, rfl, fun _ _ _ => rfl⟩
  | false =>
    cases hr : i.isRoot with
    | true =>
      have hres : fireCb cfg now w i cb =
          (rootHandler now (i.counters.getD cb.2.2 0) w,
           { i with counters :=
              (i.counters.set cb.2.2 (i.counters.getD cb.2.2 0 + 1)) }) := by
        simp [fireCb, hu, hr]
      rw [hres]
      dsimp
      obtain ⟨hr1, hc1, l, he, hp⟩ :=
        rootHandler_frame now (i.counters.getD cb.2.2 0) w
      have hc : ∀ uid' op',
          countStarts (rootHandler now (i.counters.getD cb.2.2 0) w).events
            uid' op' = countStarts w.events uid' op' := by
        intro uid' op'
        rw [he, countStarts_append, countStarts_nil_of_noChild l uid' op' hp]
        omega
      refine ⟨?_, rfl, hr1, hc1, fun uid' op' _ => hc uid' op'⟩
      intro op'
      dsimp only
      obtain ⟨p1, p2⟩ := hInv op'
      exact ⟨fun hn => by rw [hc]; exact p1 hn, by rw [hc]; exact p2⟩
    | false =>
      have h2 := childHandler_instInv cfg cb.2.1 now
        (i.counters.getD cb.2.2 0) w
        { i with counters :=
            (i.counters.set cb.2.2 (i.counters.getD cb.2.2 0 + 1)) } hInv
      have hres : fireCb cfg now w i cb =
          childHandler cfg cb.2.1 now (i.counters.getD cb.2.2 0) w
            { i with counters :=
                (i.counters.set cb.2.2 (i.counters.getD cb.2.2 0 + 1)) } := by
        simp [fireCb, hu, hr]
      rw [hres]
      exact h2

theorem foldl_fireCb_instInv (cfg : TracingOptions) (now : Nat)
    (cbs : List (LifecycleHook × Operation × Nat)) :
    ∀ (w : World) (i : Inst), InstInv w.events i →
    InstInv
      (cbs.foldl (fun p cb => fireCb cfg now p.1 p.2 cb) (w, i)).1.events
      (cbs.foldl (fun p cb => fireCb cfg now p.1 p.2 cb) (w, i)).2 ∧
    (cbs.foldl (fun p cb => fireCb cfg now p.1 p.2 cb) (w, i)).2.uid
        = i.uid ∧
    (cbs.foldl (fun p cb => fireCb cfg now p.1 p.2 cb) (w, i)).1.root
        = w.root ∧
    (cbs.foldl (fun p cb => fireCb cfg now p.1 p.2 cb) (w, i)).1.children
        = w.children ∧
    (∀ uid' op', uid' ≠ i.uid →
      countStarts
        (cbs.foldl (fun p cb => fireCb cfg now p.1 p.2 cb) (w, i)).1.events
        uid' op' = countStarts w.events uid' op') := by
  induction cbs with
  | nil => intro w i h; exact ⟨h, rfl, rfl, rfl, fun _ _ _ => rfl⟩
  | cons cb rest ih =>
    intro w i h
    rw [List.foldl_cons]
    obtain ⟨q1, q2, q3, q4, q5⟩ := fireCb_instInv cfg now w i cb h
    obtain ⟨r1, r2, r3, r4, r5⟩ :=
      ih (fireCb cfg now w i cb).1 (fireCb cfg now w i cb).2 q1
    refine ⟨r1, r2.trans q2, r3.trans q3, r4.trans q4, ?_⟩
    intro uid' op' hne
    have hne2 : uid' ≠ (fireCb cfg now w i cb).2.uid := by
      rw [q2]; exact hne
    rw [r5 uid' op' hne2, q5 uid' op' hne]

theorem step_slotInv (cfg : TracingOptions) (w : World) (e : WEvent)
    (h : SlotInv w) : SlotInv (step cfg w e) := by
  cases e with
  | setTransaction o => exact h
  | expire =>
    intro uid op
    obtain ⟨p1, p2⟩ := h uid op
    have hev : (step cfg w .expire).events =
        w.events ++ (rootTimerExpire w.helper).2 := rfl
    have hslot : slotOf (step cfg w .expire) uid op = slotOf w uid op := rfl
    have hc : countStarts (step cfg w .expire).events uid op =
        countStarts w.events uid op := by
      rw [hev, countStarts_append,
        countStarts_nil_of_noChild _ _ _ (rootTimerExpire_events w.helper)]
      omega
    refine ⟨fun hn => ?_, ?_⟩
    · rw [hslot] at hn
      rw [hc]
      exact p1 hn
    · rw [hc]
      exact p2
  | install uid0 =>
    intro uid op
    obtain ⟨p1, p2⟩ := h uid op
    have hev : (step cfg w (.install uid0)).events = w.events := by
      by_cases h1 : uid0 ∈ w.helper.installCache
      · simp [step, h1]
      · by_cases h2 : (w.root.uid == uid0) = true <;> simp [step, h1, h2]
    have hslot : slotOf (step cfg w (.install uid0)) uid op =
        slotOf w uid op := by
      by_cases h1 : uid0 ∈ w.helper.installCache
      · simp [step, h1]
      · by_cases h2 : (w.root.uid == uid0) = true
        · have hsr : (step cfg w (.install uid0)).root =
              applyTracingHooksInst cfg w.root := by simp [step, h1, h2]
          have hsc : (step cfg w (.install uid0)).children = w.children := by
            simp [step, h1, h2]
          rw [slotOf_eq, slotOf_eq, hsr, hsc,
            (applyTracingHooksInst_frame cfg w.root).1,
            (applyTracingHooksInst_frame cfg w.root).2]
        · have hsr : (step cfg w (.install uid0)).root = w.root := by
            simp [step, h1, h2]
          have hsc : (step cfg w (.install uid0)).children =
              w.children.map (fun i => if i.uid == uid0 then
                applyTracingHooksInst cfg i else i) := by
            simp [step, h1, h2]
          rw [slotOf_eq, slotOf_eq, hsr, hsc,
            slotFind_map_cond w.children (applyTracingHooksInst cfg) uid0
              uid op (fun j => applyTracingHooksInst_frame cfg j)]
    rw [hev, hslot]
    exact ⟨p1, p2⟩
  | fire uid0 hk t =>
    by_cases hroot : (w.root.uid == uid0) = true
    · have hIv : InstInv w.events w.root := by
        intro op
        have hsw : slotOf w w.root.uid op = w.root.spans.get op := by
          rw [slotOf_eq]
          simp
        have h3 := h w.root.uid op
        rw [hsw] at h3
        exact h3
      obtain ⟨q1, q2, q3, q4, q5⟩ := foldl_fireCb_instInv cfg t
        (w.root.cbs.filter (fun cb => cb.1 == hk)) w w.root hIv
      have hres : step cfg w (.fire uid0 hk t) =
          { ((w.root.cbs.filter (fun cb => cb.1 == hk)).foldl
              (fun p cb => fireCb cfg t p.1 p.2 cb) (w, w.root)).1 with
            root := ((w.root.cbs.filter (fun cb => cb.1 == hk)).foldl
              (fun p cb => fireCb cfg t p.1 p.2 cb) (w, w.root)).2 } := by
        simp only [step]
        rw [if_pos hroot]
        rfl
      generalize hF : (w.root.cbs.filter (fun cb => cb.1 == hk)).foldl
          (fun p cb => fireCb cfg t p.1 p.2 cb) (w, w.root) = F
          at q1 q2 q3 q4 q5 hres
      intro uid op
      rw [hres, slotOf_eq]
      dsimp only
      by_cases hb : (F.2.uid == uid) = true
      · rw [if_pos hb]
        have h3 := q1 op
        rwa [eq_of_beq hb] at h3
      · rw [if_neg hb]
        have hneq : uid ≠ w.root.uid := by
          intro he
          apply hb
          rw [q2, he]
          simp
        have hneqr : uid ≠ w.root.uid := hneq
        obtain ⟨p1, p2⟩ := h uid op
        have hsw : slotOf w uid op = slotFind w.children uid op := by
          rw [slotOf_eq, if_neg (fun hq => hneq (eq_of_beq hq).symm)]
        rw [hsw] at p1
        rw [q4]
        refine ⟨fun hn => ?_, ?_⟩
        · rw [q5 uid op hneq]
          exact p1 hn
        · rw [q5 uid op hneq]
          exact p2
    · cases hf : w.children.find? (fun j => j.uid == uid0) with
      | none =>
        have hres : step cfg w (.fire uid0 hk t) = w := by
          simp only [step]
          rw [if_neg hroot, hf]
        rw [hres]
        exact h
      | some i =>
        have hp : (i.uid == uid0) = true :=
          @List.find?_some Inst (fun j => j.uid == uid0) i w.children hf
        have hiu : i.uid = uid0 := eq_of_beq hp
        have hIv : InstInv w.events i := by
          intro op
          have hsw : slotOf w uid0 op = i.spans.get op := by
            rw [slotOf_eq, if_neg hroot]
            simp only [slotFind, hf]
          have h3 := h uid0 op
          rw [hsw] at h3
          rw [hiu]
          exact h3
        obtain ⟨q1, q2, q3, q4, q5⟩ := foldl_fireCb_instInv cfg t
          (i.cbs.filter (fun cb => cb.1 == hk)) w i hIv
        have hres : step cfg w (.fire uid0 hk t) =
            { ((i.cbs.filter (fun cb => cb.1 == hk)).foldl
                (fun p cb => fireCb cfg t p.1 p.2 cb) (w, i)).1 with
              children := (((i.cbs.filter (fun cb => cb.1 == hk)).foldl
                  (fun p cb => fireCb cfg t p.1 p.2 cb) (w, i)).1.children.map
                (fun j => if j.uid == uid0 then
                  ((i.cbs.filter (fun cb => cb.1 == hk)).foldl
                    (fun p cb => fireCb cfg t p.1 p.2 cb) (w, i)).2
                  else j)) } := by
          simp only [step]
          rw [if_neg hroot, hf]
          rfl
        generalize hF : (i.cbs.filter (fun cb => cb.1 == hk)).foldl
            (fun p cb => fireCb cfg t p.1 p.2 cb) (w, i) = F
            at q1 q2 q3 q4 q5 hres
        intro uid op
        rw [hres, slotOf_eq]
        dsimp only
        rw [q3, q4]
        by_cases hb : (w.root.uid == uid) = true
        · rw [if_pos hb]
          obtain ⟨p1, p2⟩ := h uid op
          have hsw : slotOf w uid op = w.root.spans.get op := by
            rw [slotOf_eq, if_pos hb]
          rw [hsw] at p1
          have hneq : uid ≠ i.uid := by
            rw [hiu]
            intro he
            exact hroot (by rw [← he]; exact hb)
          refine ⟨fun hn => ?_, ?_⟩
          · rw [q5 uid op hneq]
            exact p1 hn
          · rw [q5 uid op hneq]
            exact p2
        · rw [if_neg hb]
          by_cases hbu : uid = uid0
          · subst hbu
            rw [slotFind_map_replace w.children i F.2 uid op hf q2]
            have h3 := q1 op
            rw [q2, hiu] at h3
            exact h3
          · rw [slotFind_map_replace_ne w.children F.2 uid0 uid op
              (q2.trans hiu) hbu]
            obtain ⟨p1, p2⟩ := h uid op
            have hsw : slotOf w uid op = slotFind w.children uid op := by
              rw [slotOf_eq, if_neg hb]
            rw [hsw] at p1
            have hneq : uid ≠ i.uid := by
              rw [hiu]
              exact hbu
            refine ⟨fun hn => ?_, ?_⟩
            · rw [q5 uid op hneq]
              exact p1 hn
            · rw [q5 uid op hneq]
              exact p2

theorem run_slotInv (cfg : TracingOptions) (es : List WEvent) :
    ∀ w : World, SlotInv w → SlotInv (run cfg w es) := by
  induction es with
  | nil => intro w h; exact h
  | cons e rest ih =>
    intro w h
    exact ih (step cfg w e) (step_slotInv cfg w e h)

/-- C8 amended: at most one child span is ever started per (instance,
operation) pair — so at most one open span exists for the pair at any
time; a second "after" firing with an EMPTY slot is a no-op; but a firing
that finds the retained (already finished) span in the slot is NOT a
no-op: it finishes the span again and reschedules the root debounce, the
slot never being cleared. -/
theorem c8_amended_at_most_one_span_per_pair (cfg : TracingOptions)
    (w0 : World) (es : List WEvent) (h0 : w0.events = []) :
    (∀ uid op, countStarts (run cfg w0 es).events uid op ≤ 1) ∧
    (∀ (op : Operation) (now exec : Nat) (w : World) (i : Inst),
      i.spans.get op = none → exec ≠ 1 →
      childHandler cfg op now exec w i = (w, i)) ∧
    (∀ (op : Operation) (now exec : Nat) (w : World) (i : Inst)
      (sid : Nat),
      i.spans.get op = some sid → childOfW w ≠ none →
      shouldTrack cfg i.name = true →
      childHandler cfg op now exec w i =
        ({ w with events := w.events ++ [Event.finishSpan sid now],
                  helper := finishRootSpan now w.helper }, i)) := by
  refine ⟨?_,
    fun op now exec w i => childHandler_noop_empty_slot cfg op now exec w i,
    fun op now exec w i sid h1 h2 h3 =>
      childHandler_refinish cfg op now exec w i sid h3 h2 h1⟩
  have hInv0 : SlotInv w0 := by
    intro uid op
    constructor
    · intro _
      rw [h0]
      rfl
    · rw [h0]
      exact Nat.zero_le 1
  intro uid op
  exact (run_slotInv cfg es w0 hInv0 uid op).2

/-- Witness for the amended C8: the update scenario extended by the extra
`u@14` firing, starting from the clean fixture world. -/
theorem c8_amended_at_most_one_span_per_pair_witness :
    w0.events = [] ∧
    ((∀ uid op, countStarts (run cfgUpdate w0
        [WEvent.install 1, .fire 1 .bu 10, .fire 1 .u 11, .fire 1 .bu 12,
         .fire 1 .u 13, .fire 1 .u 14]).events uid op ≤ 1) ∧
     (∀ (op : Operation) (now exec : Nat) (w : World) (i : Inst),
       i.spans.get op = none → exec ≠ 1 →
       childHandler cfgUpdate op now exec w i = (w, i)) ∧
     (∀ (op : Operation) (now exec : Nat) (w : World) (i : Inst)
       (sid : Nat),
       i.spans.get op = some sid → childOfW w ≠ none →
       shouldTrack cfgUpdate i.name = true →
       childHandler cfgUpdate op now exec w i =
         ({ w with events := w.events ++ [Event.finishSpan sid now],
                   helper := finishRootSpan now w.helper }, i))) :=
  ⟨rfl, c8_amended_at_most_one_span_per_pair cfgUpdate w0
    [WEvent.install 1, .fire 1 .bu 10, .fire 1 .u 11, .fire 1 .bu 12,
     .fire 1 .u 13, .fire 1 .u 14] rfl⟩

end VueSdk
